import Mathlib

/-!
Verification development for the astro-video-player core: the AVI (RIFF)
container extractor (src/avi.rs), the frame-source abstraction
(src/video_format.rs) and the pixel decoding pipeline (src/codec.rs).

Machine integers are modelled as natural numbers; where the source computes
in u32 and overflow could matter an explicit reduction modulo 2 ^ 32 is kept.
Fallible operations (Rust Result) and panics (slice indexing, assert!,
unwrap, todo!) are modelled with Except; a panic is an Except.error carrying
a PanicKind.
-/

/-- Four-byte tag, as in the riff-io crate's type FourCC = [u8; 4]. -/
abbrev FourCC := ℕ × ℕ × ℕ × ℕ

/-- Metadata of a leaf chunk, the fields of riff-io ChunkMeta that src/avi.rs
reads: chunk_id, data_offset, data_size and chunk_size. -/
structure ChunkMeta where
  chunkId : FourCC
  dataOffset : ℕ
  dataSize : ℕ
  chunkSize : ℕ
deriving DecidableEq

/-- A node of the container tree, as in riff-io Entry.  The fields of a list
node that the program reads (list_type, children) are inlined into the
list constructor. -/
inductive Entry where
  | chunk : ChunkMeta → Entry
  | list : FourCC → List Entry → Entry

mutual

def Entry.decEq : (a b : Entry) → Decidable (a = b)
  | .chunk c, .chunk d =>
    match instDecidableEqChunkMeta c d with
    | isTrue h => isTrue (by rw [h])
    | isFalse h => isFalse (by intro hh; injection hh; contradiction)
  | .chunk _, .list _ _ => isFalse (by intro h; exact Entry.noConfusion h)
  | .list _ _, .chunk _ => isFalse (by intro h; exact Entry.noConfusion h)
  | .list t1 l1, .list t2 l2 =>
    match (inferInstance : DecidableEq FourCC) t1 t2, Entry.decEqList l1 l2 with
    | isTrue h1, isTrue h2 => isTrue (by rw [h1, h2])
    | isFalse h1, _ => isFalse (by intro hh; injection hh; contradiction)
    | _, isFalse h2 => isFalse (by intro hh; injection hh; contradiction)

def Entry.decEqList : (a b : List Entry) → Decidable (a = b)
  | [], [] => isTrue rfl
  | [], _ :: _ => isFalse (by intro h; exact List.noConfusion h)
  | _ :: _, [] => isFalse (by intro h; exact List.noConfusion h)
  | a :: as, b :: bs =>
    match Entry.decEq a b, Entry.decEqList as bs with
    | isTrue h1, isTrue h2 => isTrue (by rw [h1, h2])
    | isFalse h1, _ => isFalse (by intro hh; injection hh; contradiction)
    | _, isFalse h2 => isFalse (by intro hh; injection hh; contradiction)

end

instance : DecidableEq Entry := Entry.decEq

/-- Ways the modelled code can panic (Rust slice indexing, assert!, integer
overflow in a pow, Option or Result unwrap, todo!). -/
inductive PanicKind where
  | sliceOutOfBounds
  | indexOutOfBounds
  | assertionFailed
  | arithmeticOverflow
  | unwrapFailed
  | todoUnimplemented
deriving DecidableEq

/-- The three distinct message strings produced for a recognized but
unsupported bit_count in parse_stream_format:
jpgPngNotSupported for "JPG and PNG are not supported" (bit_count 0),
monochromeNotSupported for "Monochrome images are not supported"
(bit_count 1), and unsupportedBitCount for "Unsupported bit_count"
(bit_count 4, 8, 16, 32). -/
inductive PixelFormatMsg where
  | jpgPngNotSupported
  | monochromeNotSupported
  | unsupportedBitCount
deriving DecidableEq

/-- Errors of AviFile::open.  The source wraps every failure in an io::Error
holding an AviError message; the constructors here mirror the distinct
message shapes: the three find_mandatory_* messages, the unsupported
bit_count messages, the "Invalid bit_count" message, and panics. -/
inductive AviOpenError where
  | missingMandatoryList (tag : FourCC)
  | missingMandatoryListInList (parent tag : FourCC)
  | missingMandatoryChunk (parent tag : FourCC)
  | unsupportedPixelFormat (msg : PixelFormatMsg)
  | invalidPixelFormat
  | panic (k : PanicKind)
deriving DecidableEq

/-- Errors of the Video trait's get_frame.  frameIndexOutOfRange is the typed
error the specification promises; the AVI implementation in the source never
produces it (it panics instead, modelled by the panic constructor). -/
inductive FrameError where
  | frameIndexOutOfRange
  | panic (k : PanicKind)
deriving DecidableEq

def FOURCC_AVIH : FourCC := (0x61, 0x76, 0x69, 0x68)

def FOURCC_HDRL : FourCC := (0x68, 0x64, 0x72, 0x6c)

def FOURCC_STRH : FourCC := (0x73, 0x74, 0x72, 0x68)

def FOURCC_STRF : FourCC := (0x73, 0x74, 0x72, 0x66)

def FOURCC_INDX : FourCC := (0x69, 0x6e, 0x64, 0x78)

def FOURCC_STRL : FourCC := (0x73, 0x74, 0x72, 0x6c)

def FOURCC_MOVI : FourCC := (0x6d, 0x6f, 0x76, 0x69)

/-- The video frame payload tag bytes [0x30, 0x30, 0x64, 0x62], ASCII 00db,
matched literally in AviFile::open's filter. -/
def FOURCC_00DB : FourCC := (0x30, 0x30, 0x64, 0x62)

/-- Byte of the open file at index i (0 when out of range; used only to model
the field reads of the unchecked ptr::read reinterpretation, which performs
no per-byte bounds check of its own). -/
def byteAt (bytes : List ℕ) (i : ℕ) : ℕ := bytes.getD i 0

/-- Little-endian 16-bit field at byte offset i, as laid out in memory for the
repr(C) header records on the little-endian targets the program assumes. -/
def readU16LE (bytes : List ℕ) (i : ℕ) : ℕ :=
  byteAt bytes i + 256 * byteAt bytes (i + 1)

/-- Little-endian 32-bit field at byte offset i. -/
def readU32LE (bytes : List ℕ) (i : ℕ) : ℕ :=
  byteAt bytes i + 256 * byteAt bytes (i + 1) + 65536 * byteAt bytes (i + 2) +
    16777216 * byteAt bytes (i + 3)

/-- Little-endian 64-bit field at byte offset i. -/
def readU64LE (bytes : List ℕ) (i : ℕ) : ℕ :=
  readU32LE bytes i + 4294967296 * readU32LE bytes (i + 4)

/-- Little-endian i32 field at byte offset i, two's complement. -/
def readI32LE (bytes : List ℕ) (i : ℕ) : ℤ :=
  let v := readU32LE bytes i
  if v < 2 ^ 31 then (v : ℤ) else (v : ℤ) - 2 ^ 32

/-- AviMainHeader (repr(C), 44 bytes: ten u32 fields then reserved [u8; 4]). -/
structure AviMainHeader where
  microSecPerFrame : ℕ
  maxBytesPerSec : ℕ
  paddingGranularity : ℕ
  flags : ℕ
  totalFrames : ℕ
  initialFrames : ℕ
  streams : ℕ
  suggestedBufferSize : ℕ
  width : ℕ
  height : ℕ
  reserved : List ℕ
deriving DecidableEq

/-- AviStreamHeader (repr(C), 56 bytes). -/
structure AviStreamHeader where
  fccType : List ℕ
  fccHandler : List ℕ
  flags : ℕ
  priority : ℕ
  language : ℕ
  initialFrames : ℕ
  scale : ℕ
  rate : ℕ
  start : ℕ
  length : ℕ
  suggestedBufferSize : ℕ
  quality : ℕ
  sampleSize : ℕ
  left : ℕ
  top : ℕ
  right : ℕ
  bottom : ℕ
deriving DecidableEq

/-- BitMapInfoHeader (repr(C), 48 bytes; width and height are i32). -/
structure BitMapInfoHeader where
  size : ℕ
  width : ℤ
  height : ℤ
  planes : ℕ
  bitCount : ℕ
  compression : ℕ
  sizeImage : ℕ
  xPelsPerMeter : ℕ
  yPelsPerMeter : ℕ
  clrUsed : ℕ
  clrImportant : ℕ
deriving DecidableEq

/-- ColorCoding: the source enum has the single variant BGR. -/
inductive ColorCoding where
  | BGR
deriving DecidableEq

/-- RgbQuad color table entry (blue, green, red, reserved). -/
structure RgbQuad where
  blue : ℕ
  green : ℕ
  red : ℕ
  reserved : ℕ
deriving DecidableEq

/-- BitMapInfo: decoded pixel-format record. -/
structure BitMapInfo where
  header : BitMapInfoHeader
  colorCoding : ColorCoding
  rgb : List RgbQuad
deriving DecidableEq

/-- Field-by-field value of the ptr::read reinterpretation of the 44 bytes
at offset o as an AviMainHeader (C layout: u32 fields at 0,4,...,36,
reserved bytes at 40..43). -/
def decodeMainHeader (bytes : List ℕ) (o : ℕ) : AviMainHeader :=
  { microSecPerFrame := readU32LE bytes o
    maxBytesPerSec := readU32LE bytes (o + 4)
    paddingGranularity := readU32LE bytes (o + 8)
    flags := readU32LE bytes (o + 12)
    totalFrames := readU32LE bytes (o + 16)
    initialFrames := readU32LE bytes (o + 20)
    streams := readU32LE bytes (o + 24)
    suggestedBufferSize := readU32LE bytes (o + 28)
    width := readU32LE bytes (o + 32)
    height := readU32LE bytes (o + 36)
    reserved := [byteAt bytes (o + 40), byteAt bytes (o + 41),
                 byteAt bytes (o + 42), byteAt bytes (o + 43)] }

/-- Field-by-field value of the ptr::read reinterpretation of the 56 bytes at
offset o as an AviStreamHeader (C layout offsets 0,4,8,12,14,16,...,54). -/
def decodeStreamHeader (bytes : List ℕ) (o : ℕ) : AviStreamHeader :=
  { fccType := [byteAt bytes o, byteAt bytes (o + 1),
                byteAt bytes (o + 2), byteAt bytes (o + 3)]
    fccHandler := [byteAt bytes (o + 4), byteAt bytes (o + 5),
                   byteAt bytes (o + 6), byteAt bytes (o + 7)]
    flags := readU32LE bytes (o + 8)
    priority := readU16LE bytes (o + 12)
    language := readU16LE bytes (o + 14)
    initialFrames := readU32LE bytes (o + 16)
    scale := readU32LE bytes (o + 20)
    rate := readU32LE bytes (o + 24)
    start := readU32LE bytes (o + 28)
    length := readU32LE bytes (o + 32)
    suggestedBufferSize := readU32LE bytes (o + 36)
    quality := readU32LE bytes (o + 40)
    sampleSize := readU32LE bytes (o + 44)
    left := readU16LE bytes (o + 48)
    top := readU16LE bytes (o + 50)
    right := readU16LE bytes (o + 52)
    bottom := readU16LE bytes (o + 54) }

/-- Field-by-field value of the ptr::read reinterpretation of the 48 bytes at
offset o as a BitMapInfoHeader (C layout: u64 fields 8-aligned at 24, 32). -/
def decodeBitMapInfoHeader (bytes : List ℕ) (o : ℕ) : BitMapInfoHeader :=
  { size := readU32LE bytes o
    width := readI32LE bytes (o + 4)
    height := readI32LE bytes (o + 8)
    planes := readU16LE bytes (o + 12)
    bitCount := readU16LE bytes (o + 14)
    compression := readU32LE bytes (o + 16)
    sizeImage := readU32LE bytes (o + 20)
    xPelsPerMeter := readU64LE bytes (o + 24)
    yPelsPerMeter := readU64LE bytes (o + 32)
    clrUsed := readU32LE bytes (o + 40)
    clrImportant := readU32LE bytes (o + 44) }

/-- parse_main_header: assert!(data_size >= 44) (assertion failure is a
panic), then read_bytes(data_offset..data_offset + chunk_size) (panics when
the range leaves the file), then the unchecked reinterpretation of the first
44 bytes. -/
def parse_main_header (bytes : List ℕ) (c : ChunkMeta) :
    Except AviOpenError AviMainHeader :=
  if c.dataSize < 44 then .error (.panic .assertionFailed)
  else if bytes.length < c.dataOffset + c.chunkSize then
    .error (.panic .sliceOutOfBounds)
  else .ok (decodeMainHeader bytes c.dataOffset)

/-- parse_stream_header: assert!(data_size >= 56), slice of chunk_size bytes,
then the unchecked reinterpretation of the first 56 bytes. -/
def parse_stream_header (bytes : List ℕ) (c : ChunkMeta) :
    Except AviOpenError AviStreamHeader :=
  if c.dataSize < 56 then .error (.panic .assertionFailed)
  else if bytes.length < c.dataOffset + c.chunkSize then
    .error (.panic .sliceOutOfBounds)
  else .ok (decodeStreamHeader bytes c.dataOffset)

/-- parse_stream_format: assert!(data_size >= 48), slice of exactly 48 bytes,
the unchecked reinterpretation as BitMapInfoHeader, then the match on
bit_count, written as the same ordered chain of comparisons
(0, 1, 4, 8, 16, 24, 32, catch-all). -/
def parse_stream_format (bytes : List ℕ) (c : ChunkMeta) :
    Except AviOpenError BitMapInfo :=
  if c.dataSize < 48 then .error (.panic .assertionFailed)
  else if bytes.length < c.dataOffset + 48 then
    .error (.panic .sliceOutOfBounds)
  else
    let header := decodeBitMapInfoHeader bytes c.dataOffset
    if header.bitCount = 0 then
      .error (.unsupportedPixelFormat .jpgPngNotSupported)
    else if header.bitCount = 1 then
      .error (.unsupportedPixelFormat .monochromeNotSupported)
    else if header.bitCount = 4 then
      .error (.unsupportedPixelFormat .unsupportedBitCount)
    else if header.bitCount = 8 then
      .error (.unsupportedPixelFormat .unsupportedBitCount)
    else if header.bitCount = 16 then
      .error (.unsupportedPixelFormat .unsupportedBitCount)
    else if header.bitCount = 24 then
      .ok { header := header, colorCoding := .BGR, rgb := [] }
    else if header.bitCount = 32 then
      .error (.unsupportedPixelFormat .unsupportedBitCount)
    else .error .invalidPixelFormat

/-- iter().find_map over entries for the first list node of the given type
(the argument order of the scan in find_mandatory_list and
find_mandatory_list_in_list). -/
def findListOfType : List Entry → FourCC → Option (FourCC × List Entry)
  | [], _ => none
  | .list lt ch :: rest, t =>
    if lt = t then some (lt, ch) else findListOfType rest t
  | .chunk _ :: rest, t => findListOfType rest t

/-- iter().find_map over children for the first chunk with the given id (the
scan in find_mandatory_chunk). -/
def findChunkOfId : List Entry → FourCC → Option ChunkMeta
  | [], _ => none
  | .chunk c :: rest, t =>
    if c.chunkId = t then some c else findChunkOfId rest t
  | .list _ _ :: rest, t => findChunkOfId rest t

/-- find_mandatory_list: first top-level list entry with the given type. -/
def findMandatoryList (entries : List Entry) (t : FourCC) :
    Except AviOpenError (FourCC × List Entry) :=
  match findListOfType entries t with
  | some m => .ok m
  | none => .error (.missingMandatoryList t)

/-- find_mandatory_list_in_list: first child list with the given type; the
error also names the parent list's type. -/
def findMandatoryListInList (parent : FourCC) (children : List Entry)
    (t : FourCC) : Except AviOpenError (FourCC × List Entry) :=
  match findListOfType children t with
  | some m => .ok m
  | none => .error (.missingMandatoryListInList parent t)

/-- find_mandatory_chunk: first child chunk with the given id; the error also
names the parent list's type. -/
def findMandatoryChunk (parent : FourCC) (children : List Entry)
    (t : FourCC) : Except AviOpenError ChunkMeta :=
  match findChunkOfId children t with
  | some c => .ok c
  | none => .error (.missingMandatoryChunk parent t)

/-- The frame index built at open time: the movi list's children filtered to
the chunks whose id is the literal bytes [0x30, 0x30, 0x64, 0x62] (00db),
in file order. -/
def filterFrameChunks (children : List Entry) : List ChunkMeta :=
  children.filterMap (fun e =>
    match e with
    | .chunk c => if c.chunkId = FOURCC_00DB then some c else none
    | .list _ _ => none)

/-- The fields of AviFile that survive open (the RiffFile's bytes are passed
separately where needed). -/
structure AviFileModel where
  mainHeader : AviMainHeader
  streamHeader : AviStreamHeader
  streamFormat : BitMapInfo
  frames : List ChunkMeta
deriving DecidableEq

/-- AviFile::open over an already-read container tree: locate hdrl, avih
(parse it), strl, strh, strf, indx, parse strh and strf, locate movi, and
build the frame index. -/
def AviFile.openFile (bytes : List ℕ) (entries : List Entry) :
    Except AviOpenError AviFileModel := do
  let hdrl ← findMandatoryList entries FOURCC_HDRL
  let chunk ← findMandatoryChunk hdrl.1 hdrl.2 FOURCC_AVIH
  let mainHeader ← parse_main_header bytes chunk
  let strl ← findMandatoryListInList hdrl.1 hdrl.2 FOURCC_STRL
  let strh ← findMandatoryChunk strl.1 strl.2 FOURCC_STRH
  let strf ← findMandatoryChunk strl.1 strl.2 FOURCC_STRF
  let _indx ← findMandatoryChunk strl.1 strl.2 FOURCC_INDX
  let streamHeader ← parse_stream_header bytes strh
  let streamFormat ← parse_stream_format bytes strf
  let movi ← findMandatoryList entries FOURCC_MOVI
  pure { mainHeader := mainHeader, streamHeader := streamHeader,
         streamFormat := streamFormat, frames := filterFrameChunks movi.2 }

/-- AviVideo::frame_count: returns the MainHeader's total_frames field. -/
def AviVideo.frame_count (f : AviFileModel) : ℕ := f.mainHeader.totalFrames

/-- AviVideo::image_width. -/
def AviVideo.image_width (f : AviFileModel) : ℕ := f.mainHeader.width

/-- AviVideo::image_height. -/
def AviVideo.image_height (f : AviFileModel) : ℕ := f.mainHeader.height

/-- AviVideo::get_frame: indexes the frame vector (a Rust index panic when
the index is out of range), then read_bytes over
data_offset..data_offset + data_size (a panic when the range leaves the
file). It never constructs the typed frameIndexOutOfRange error. -/
def AviVideo.get_frame (f : AviFileModel) (bytes : List ℕ) (i : ℕ) :
    Except FrameError (List ℕ) :=
  match f.frames[i]? with
  | none => .error (.panic .indexOutOfBounds)
  | some m =>
    if m.dataOffset + m.dataSize ≤ bytes.length then
      .ok ((bytes.drop m.dataOffset).take m.dataSize)
    else .error (.panic .sliceOutOfBounds)

/-- Modelled from the spec: the external ser-io crate's Bayer enumeration
(spec section 4.4 lists none / packed-BGR, RGGB, BGR, others reserved); only
the BGR variant is matched by the code, every other variant reaches todo!. -/
inductive Bayer where
  | NONE
  | RGGB
  | GRBG
  | GBRG
  | BGGR
  | RGB
  | BGR
deriving DecidableEq

/-- Modelled from the spec: the external ser-io crate's Endianness
enumeration (little or big byte order), matched in DebayerCodec::decode. -/
inductive Endianness where
  | LittleEndian
  | BigEndian
deriving DecidableEq

/-- The Video trait capability set (src/video_format.rs) for one source:
width, height, bytes-per-pixel, bits-per-plane, Bayer pattern, byte order,
and per-index frame bytes (get_frame). -/
structure VideoModel where
  imageWidth : ℕ
  imageHeight : ℕ
  bytesPerPixel : ℕ
  pixelDepthBits : ℕ
  bayer : Bayer
  endianness : Endianness
  frames : List (List ℕ)
deriving DecidableEq

/-- video.get_frame(i).unwrap() as the codecs use it: the frame bytes, or a
panic (unwrap of an Err / out-of-range index) when the source has no frame
at that index. -/
def VideoModel.getFrame (v : VideoModel) (i : ℕ) :
    Except PanicKind (List ℕ) :=
  match v.frames[i]? with
  | some b => .ok b
  | none => .error .unwrapFailed

/-- Rust slice indexing bytes[i]: the byte, or an out-of-bounds panic. -/
def sliceU8 (bytes : List ℕ) (i : ℕ) : Except PanicKind ℕ :=
  match bytes[i]? with
  | some b => .ok b
  | none => .error .sliceOutOfBounds

/-- The two-byte read of DebayerCodec::decode: slice bytes[i..i + 2] (panic
when it leaves the slice) then read_u16 in the given byte order. -/
def readU16 (e : Endianness) (bytes : List ℕ) (i : ℕ) :
    Except PanicKind ℕ := do
  let b0 ← sliceU8 bytes i
  let b1 ← sliceU8 bytes (i + 1)
  match e with
  | .LittleEndian => pure (b0 + 256 * b1)
  | .BigEndian => pure (256 * b0 + b1)

/-- The channel conversion ((sample as f32 / max_value) * 255.0) as u8 with
max_value = 2 ^ d.  For every sample below 2 ^ 24 / 255 the f32 computation
is exact (sample / 2 ^ d is an exponent shift, and sample * 255 fits the
24-bit significand), so the saturating, truncating u8 cast yields exactly
min (sample * 255 / 2 ^ d) 255 in integer arithmetic. -/
def scaleSample (s d : ℕ) : ℕ := min (s * 255 / 2 ^ d) 255

/-- One iteration of the RgbCodec::decode pixel loop at byte offset off:
match on the configured Bayer pattern; for BGR read the three consecutive
bytes (blue, green, red) and push blue, green, red, alpha = 255; every other
pattern hits todo!. -/
def rgbPixel (bayer : Bayer) (bytes : List ℕ) (off : ℕ) :
    Except PanicKind (List ℕ) :=
  match bayer with
  | .BGR => do
    let b ← sliceU8 bytes off
    let g ← sliceU8 bytes (off + 1)
    let r ← sliceU8 bytes (off + 2)
    pure [b, g, r, 255]
  | _ => .error .todoUnimplemented

/-- The accumulation of a counted loop for i in 0..n that extends an output
byte vector with the bytes produced by iteration i, where an iteration can
panic. -/
def exceptMapRange (f : ℕ → Except PanicKind (List ℕ)) :
    ℕ → Except PanicKind (List ℕ)
  | 0 => .ok []
  | n + 1 => do
    let init ← exceptMapRange f n
    let last ← f n
    pure (init ++ last)

/-- RgbCodec: holds the configured Bayer pattern. -/
structure RgbCodec where
  bayer : Bayer
deriving DecidableEq

/-- RgbCodec::decode: fetch the frame (unwrap), then for y in 0..height and
x in 0..width read one pixel at offset y * bytes_per_row + x * 3 (u32
arithmetic, hence the reductions modulo 2 ^ 32) with bytes_per_row =
width * 3, and return (width, height, pixels). -/
def RgbCodec.decode (c : RgbCodec) (v : VideoModel) (i : ℕ) :
    Except PanicKind (ℕ × ℕ × List ℕ) :=
  match v.getFrame i with
  | .error e => .error e
  | .ok frame =>
    match exceptMapRange (fun y => exceptMapRange (fun x =>
        rgbPixel c.bayer frame
          ((y * ((v.imageWidth * 3) % 2 ^ 32)) % 2 ^ 32 +
            (x * 3) % 2 ^ 32)) v.imageWidth) v.imageHeight with
    | .error e => .error e
    | .ok px => .ok (v.imageWidth, v.imageHeight, px)

/-- One iteration of the DebayerCodec::decode block loop at pixel origin
(x, y): offsets in u32 arithmetic, four sample reads (two-byte reads in the
declared byte order when bytes_per_pixel = 2, single-byte reads otherwise),
then push scaled quad[3], quad[1], quad[0] (blue, green, red) and alpha =
255; quad[2] is read but unused. -/
def debayerBlock (w b : ℕ) (e : Endianness) (d : ℕ) (frame : List ℕ)
    (y x : ℕ) : Except PanicKind (List ℕ) := do
  let bpr := (w * b) % 2 ^ 32
  let yOff := (y * bpr) % 2 ^ 32
  let xOff := (x * b) % 2 ^ 32
  let off := yOff + xOff
  let nro := (yOff + bpr + xOff) % 2 ^ 32
  if b = 2 then do
    let q0 ← readU16 e frame off
    let q1 ← readU16 e frame (off + 2)
    let _q2 ← readU16 e frame nro
    let q3 ← readU16 e frame (nro + 2)
    pure [scaleSample q3 d, scaleSample q1 d, scaleSample q0 d, 255]
  else do
    let q0 ← sliceU8 frame off
    let q1 ← sliceU8 frame (off + 1)
    let _q2 ← sliceU8 frame nro
    let q3 ← sliceU8 frame (nro + 1)
    pure [scaleSample q3 d, scaleSample q1 d, scaleSample q0 d, 255]

/-- DebayerCodec::decode: fetch the frame (unwrap), compute max_value =
2i32.pow(pixel_depth_bits) (an arithmetic overflow for depths of 31 bits or
more, modelled as the debug-build panic), then run the while loops that step
(x, y) by 2 — iteration (kx, ky) of the counted form is pixel origin
(2 kx, 2 ky), and the loops run ceil(width / 2) by ceil(height / 2) times —
and return (width / 2, height / 2, pixels). -/
def DebayerCodec.decode (v : VideoModel) (i : ℕ) :
    Except PanicKind (ℕ × ℕ × List ℕ) :=
  match v.getFrame i with
  | .error e => .error e
  | .ok frame =>
    if 31 ≤ v.pixelDepthBits then .error .arithmeticOverflow
    else
      match exceptMapRange (fun ky => exceptMapRange (fun kx =>
          debayerBlock v.imageWidth v.bytesPerPixel v.endianness
            v.pixelDepthBits frame (2 * ky) (2 * kx))
          ((v.imageWidth + 1) / 2)) ((v.imageHeight + 1) / 2) with
      | .error e => .error e
      | .ok px => .ok (v.imageWidth / 2, v.imageHeight / 2, px)

/-- The sample of a mosaic frame at pixel position (x, y): the byte at
offset y * (w * b) + x * b when b is not 2, the two-byte value there in the
given byte order when b = 2 (out-of-range positions read as 0; the theorems
only use in-range positions). -/
def sampleAt (frame : List ℕ) (w b : ℕ) (e : Endianness) (x y : ℕ) : ℕ :=
  let off := y * (w * b) + x * b
  if b = 2 then
    match e with
    | .LittleEndian => byteAt frame off + 256 * byteAt frame (off + 1)
    | .BigEndian => 256 * byteAt frame off + byteAt frame (off + 1)
  else byteAt frame off

/-- The value a successful debayer block at block coordinates (r, cc) —
pixel origin (2 cc, 2 r) — contributes to the output: scaled bottom-right,
top-right and top-left samples, then alpha = 255. -/
def debayerBlockVal (frame : List ℕ) (w b : ℕ) (e : Endianness)
    (d r cc : ℕ) : List ℕ :=
  [scaleSample (sampleAt frame w b e (2 * cc + 1) (2 * r + 1)) d,
   scaleSample (sampleAt frame w b e (2 * cc + 1) (2 * r)) d,
   scaleSample (sampleAt frame w b e (2 * cc) (2 * r)) d, 255]

/-- Follows the spec's words (section 4.5): normalize by linear scaling
round(sample / 2 ^ bits_per_plane * 255), rounding to nearest (half rounds
up).  Stated only for comparison with the code's truncating conversion. -/
def specRoundScale (s d : ℕ) : ℕ := (s * 255 * 2 + 2 ^ d) / (2 ^ d * 2)

/-- The concatenated output of n loop iterations, iteration i contributing
the byte list g i: the pure shape of exceptMapRange when nothing panics. -/
def flatRange (g : ℕ → List ℕ) : ℕ → List ℕ
  | 0 => []
  | n + 1 => flatRange g n ++ g n

/-- A container layout holding exactly the mandatory nodes: a hdrl list with
an avih chunk and a strl list holding strh, strf and indx chunks, and a
movi list with the given children. -/
def canonicalEntries (a s f x : ChunkMeta) (movi : List Entry) :
    List Entry :=
  [.list FOURCC_HDRL
    [.chunk a, .list FOURCC_STRL [.chunk s, .chunk f, .chunk x]],
   .list FOURCC_MOVI movi]

/-- Concrete avih chunk: 44 bytes at offset 0. -/
def cAvih : ChunkMeta := { chunkId := FOURCC_AVIH, dataOffset := 0, dataSize := 44, chunkSize := 44 }

/-- Concrete strh chunk: 56 bytes at offset 44. -/
def cStrh : ChunkMeta := { chunkId := FOURCC_STRH, dataOffset := 44, dataSize := 56, chunkSize := 56 }

/-- Concrete strf chunk: 48 bytes at offset 100. -/
def cStrf : ChunkMeta := { chunkId := FOURCC_STRF, dataOffset := 100, dataSize := 48, chunkSize := 48 }

/-- Concrete indx chunk (found but never parsed by open). -/
def cIndx : ChunkMeta := { chunkId := FOURCC_INDX, dataOffset := 0, dataSize := 0, chunkSize := 0 }

/-- Concrete 00db frame payload chunks: two bytes each at 148, 150, 152. -/
def cFrame1 : ChunkMeta := { chunkId := FOURCC_00DB, dataOffset := 148, dataSize := 2, chunkSize := 2 }

def cFrame2 : ChunkMeta := { chunkId := FOURCC_00DB, dataOffset := 150, dataSize := 2, chunkSize := 2 }

def cFrame3 : ChunkMeta := { chunkId := FOURCC_00DB, dataOffset := 152, dataSize := 2, chunkSize := 2 }

/-- Concrete JUNK chunk interleaved in the movi list (not a frame). -/
def cJunk : ChunkMeta := { chunkId := (0x4a, 0x55, 0x4e, 0x4b), dataOffset := 0, dataSize := 0, chunkSize := 0 }

/-- Concrete file bytes: avih record at 0..43 with total_frames = 5 at
offset 16, strh record at 44..99, strf record at 100..147 with
bit_count = 24 at offset 114 (and compression = 0), frame payload bytes at
148..153 — while the movi list carries only three 00db chunks, so the built
frame index has length 3 and the declared total_frames is 5. -/
def cBytes : List ℕ :=
  List.replicate 16 0 ++ [5, 0, 0, 0] ++ List.replicate 94 0 ++ [24, 0] ++
    List.replicate 32 0 ++ [1, 2, 3, 4, 5, 6]

/-- Concrete entry tree: the canonical layout with three 00db frames and an
interleaved JUNK chunk under movi. -/
def cEntries : List Entry :=
  canonicalEntries cAvih cStrh cStrf cIndx
    [.chunk cFrame1, .chunk cJunk, .chunk cFrame2, .chunk cFrame3]

/-- The Frame Source value that opening cBytes / cEntries produces. -/
def cOpened : AviFileModel :=
  { mainHeader := decodeMainHeader cBytes 0
    streamHeader := decodeStreamHeader cBytes 44
    streamFormat := { header := decodeBitMapInfoHeader cBytes 100,
                      colorCoding := .BGR, rgb := [] }
    frames := [cFrame1, cFrame2, cFrame3] }

/-- Variant of cBytes whose strf record declares bit_count = 8 (the strf
leaf still spans 100..147, so length 148 suffices). -/
def cBytes8 : List ℕ :=
  List.replicate 16 0 ++ [5, 0, 0, 0] ++ List.replicate 94 0 ++ [8, 0] ++
    List.replicate 32 0

/-- Concrete mosaic source with odd height: width 2, height 1, one byte per
pixel, 8 bits per plane, and a frame of exactly width * height bytes. -/
def cOddVideo : VideoModel :=
  { imageWidth := 2, imageHeight := 1, bytesPerPixel := 1,
    pixelDepthBits := 8, bayer := .NONE, endianness := .LittleEndian,
    frames := [[7, 7]] }

/-- Concrete mosaic source for the scaling counterexample: a single 2 by 2
block whose used samples are all 128 at depth 8. -/
def cScaleVideo : VideoModel :=
  { imageWidth := 2, imageHeight := 2, bytesPerPixel := 1,
    pixelDepthBits := 8, bayer := .NONE, endianness := .LittleEndian,
    frames := [[128, 128, 0, 128]] }

/-- A single-block mosaic source of depth d whose four samples all read s. -/
def uniformBlockVideo (s d : ℕ) : VideoModel :=
  { imageWidth := 2, imageHeight := 2, bytesPerPixel := 1,
    pixelDepthBits := d, bayer := .NONE, endianness := .LittleEndian,
    frames := [[s, s, s, s]] }

/-- Concrete even-dimensioned two-byte-per-pixel big-endian mosaic source
with a frame of exactly width * height * 2 bytes. -/
def cEvenVideo : VideoModel :=
  { imageWidth := 2, imageHeight := 2, bytesPerPixel := 2,
    pixelDepthBits := 16, bayer := .NONE, endianness := .BigEndian,
    frames := [[1, 2, 3, 4, 5, 6, 7, 8]] }

/-- Concrete even-dimensioned one-byte-per-pixel mosaic source with a frame
of exactly width * height bytes (the tight bound). -/
def cByteVideo : VideoModel :=
  { imageWidth := 2, imageHeight := 2, bytesPerPixel := 1,
    pixelDepthBits := 8, bayer := .NONE, endianness := .LittleEndian,
    frames := [[1, 2, 3, 4]] }

/-- Concrete packed-BGR source: width 2, height 1, one frame of
width * height * 3 bytes. -/
def cRgbVideo : VideoModel :=
  { imageWidth := 2, imageHeight := 1, bytesPerPixel := 1,
    pixelDepthBits := 8, bayer := .BGR, endianness := .LittleEndian,
    frames := [[10, 20, 30, 40, 50, 60]] }

/-- Concrete 1 x 1 source used with a non-BGR codec configuration. -/
def cTinyVideo : VideoModel :=
  { imageWidth := 1, imageHeight := 1, bytesPerPixel := 1,
    pixelDepthBits := 8, bayer := .RGGB, endianness := .LittleEndian,
    frames := [[0, 0, 0]] }

theorem except_ok_bind {E α β : Type} (a : α) (f : α → Except E β) :
    (Except.ok a >>= f) = f a := rfl

theorem except_error_bind {E α β : Type} (e : E) (f : α → Except E β) :
    ((Except.error e : Except E α) >>= f) = .error e := rfl

theorem except_bind_eq_ok {E α β : Type} {x : Except E α}
    {f : α → Except E β} {b : β} (h : (x >>= f) = .ok b) :
    ∃ a, x = .ok a ∧ f a = .ok b := by
  cases x with
  | ok a => exact ⟨a, rfl, h⟩
  | error e =>
    rw [except_error_bind] at h
    exact Except.noConfusion h

theorem getElem?_eq_some_getD {l : List ℕ} {n : ℕ} (h : n < l.length) :
    l[n]? = some (l.getD n 0) := by
  rw [List.getElem?_eq_getElem h, List.getD_eq_getElem l 0 h]

theorem VideoModel.getFrame_ok {v : VideoModel} {i : ℕ} {frame : List ℕ}
    (h : v.frames[i]? = some frame) : v.getFrame i = .ok frame := by
  simp [VideoModel.getFrame, h]

theorem sliceU8_ok {frame : List ℕ} {i : ℕ} (h : i < frame.length) :
    sliceU8 frame i = .ok (frame.getD i 0) := by
  unfold sliceU8
  rw [getElem?_eq_some_getD h]

theorem readU16_ok {frame : List ℕ} {i : ℕ} (e : Endianness)
    (h : i + 1 < frame.length) :
    readU16 e frame i =
      .ok (match e with
           | .LittleEndian => frame.getD i 0 + 256 * frame.getD (i + 1) 0
           | .BigEndian => 256 * frame.getD i 0 + frame.getD (i + 1) 0) := by
  have h0 : i < frame.length := Nat.lt_of_succ_lt h
  cases e <;>
    simp [readU16, sliceU8_ok h0, sliceU8_ok h, except_ok_bind]

theorem exceptMapRange_ok {f : ℕ → Except PanicKind (List ℕ)}
    {g : ℕ → List ℕ} : ∀ {n : ℕ}, (∀ i, i < n → f i = .ok (g i)) →
    exceptMapRange f n = .ok (flatRange g n) := by
  intro n
  induction n with
  | zero => intro _; rfl
  | succ n ih =>
    intro h
    have hn := h n (Nat.lt_succ_self n)
    have hrec := ih (fun i hi => h i (Nat.lt_succ_of_lt hi))
    simp [exceptMapRange, flatRange, hrec, hn, except_ok_bind]

theorem exceptMapRange_error {f : ℕ → Except PanicKind (List ℕ)}
    {e : PanicKind} : ∀ {n : ℕ}, 0 < n → (∀ i, i < n → f i = .error e) →
    exceptMapRange f n = .error e := by
  intro n
  induction n with
  | zero => intro h; exact absurd h (Nat.lt_irrefl 0)
  | succ n ih =>
    intro _ h
    cases Nat.eq_zero_or_pos n with
    | inl h0 =>
      subst h0
      simp [exceptMapRange, h 0 (Nat.lt_succ_self 0), except_ok_bind,
        except_error_bind]
    | inr hp =>
      have hrec := ih hp (fun i hi => h i (Nat.lt_succ_of_lt hi))
      simp [exceptMapRange, hrec, except_error_bind]

theorem flatRange_length {g : ℕ → List ℕ} {c : ℕ} : ∀ n : ℕ,
    (∀ i, i < n → (g i).length = c) → (flatRange g n).length = n * c := by
  intro n
  induction n with
  | zero => intro _; simp [flatRange]
  | succ n ih =>
    intro h
    have hrec := ih (fun i hi => h i (Nat.lt_succ_of_lt hi))
    simp [flatRange, hrec, h n (Nat.lt_succ_self n), Nat.succ_mul]

theorem flatRange_getElem? {g : ℕ → List ℕ} {c : ℕ} : ∀ n : ℕ, ∀ i j : ℕ,
    (∀ k, k < n → (g k).length = c) → i < n → j < c →
    (flatRange g n)[i * c + j]? = (g i)[j]? := by
  intro n
  induction n with
  | zero => intro i j _ hi _; exact absurd hi (Nat.not_lt_zero i)
  | succ n ih =>
    intro i j h hi hj
    have hres : ∀ k, k < n → (g k).length = c :=
      fun k hk => h k (Nat.lt_succ_of_lt hk)
    have hlen : (flatRange g n).length = n * c := flatRange_length n hres
    cases Nat.lt_succ_iff_lt_or_eq.mp hi with
    | inl hlt =>
      have hb : i * c + j < (flatRange g n).length := by
        rw [hlen]
        calc i * c + j < i * c + c := Nat.add_lt_add_left hj _
          _ = (i + 1) * c := (Nat.succ_mul i c).symm
          _ ≤ n * c := Nat.mul_le_mul_right c hlt
      rw [flatRange, List.getElem?_append_left hb]
      exact ih i j hres hlt hj
    | inr heq =>
      have hb : (flatRange g n).length ≤ i * c + j := by
        rw [hlen, heq]; exact Nat.le_add_right _ _
      rw [flatRange, List.getElem?_append_right hb, hlen, heq,
        Nat.add_sub_cancel_left]

theorem rgbPixel_ok {frame : List ℕ} {off : ℕ} (h : off + 2 < frame.length) :
    rgbPixel .BGR frame off =
      .ok [frame.getD off 0, frame.getD (off + 1) 0,
           frame.getD (off + 2) 0, 255] := by
  have h0 : off < frame.length := by omega
  have h1 : off + 1 < frame.length := by omega
  simp [rgbPixel, sliceU8_ok h0, sliceU8_ok h1, sliceU8_ok h, except_ok_bind]

theorem rgbPixel_todo {frame : List ℕ} {off : ℕ} {bayer : Bayer}
    (h : bayer ≠ .BGR) :
    rgbPixel bayer frame off = .error .todoUnimplemented := by
  cases bayer <;> first | rfl | exact absurd rfl h

theorem rgbDecode_eq {c : RgbCodec} {v : VideoModel} {i : ℕ}
    {frame : List ℕ} (hf : v.frames[i]? = some frame) :
    RgbCodec.decode c v i =
      match exceptMapRange (fun y => exceptMapRange (fun x =>
          rgbPixel c.bayer frame
            ((y * ((v.imageWidth * 3) % 2 ^ 32)) % 2 ^ 32 +
              (x * 3) % 2 ^ 32)) v.imageWidth) v.imageHeight with
      | .error e => .error e
      | .ok px => .ok (v.imageWidth, v.imageHeight, px) := by
  simp [RgbCodec.decode, VideoModel.getFrame_ok hf]

/-- C5: for a packed-BGR configured codec and a source whose frame slice
holds at least width * height * 3 bytes (fitting u32 arithmetic), decode
returns exactly (width, height) and a buffer of width * height * 4 bytes in
which the pixel at row-major position j is the three consecutive input bytes
at 3 j, 3 j + 1, 3 j + 2 followed by alpha = 255, with no channel
reordering. -/
theorem rgb_decode_pixels (v : VideoModel) (i : ℕ) (frame : List ℕ)
    (hf : v.frames[i]? = some frame)
    (hlen : v.imageWidth * v.imageHeight * 3 ≤ frame.length)
    (hsz : v.imageWidth * v.imageHeight * 3 < 2 ^ 32) :
    ∃ pixels, RgbCodec.decode { bayer := .BGR } v i =
        .ok (v.imageWidth, v.imageHeight, pixels) ∧
      pixels.length = v.imageWidth * v.imageHeight * 4 ∧
      ∀ j, j < v.imageWidth * v.imageHeight →
        pixels[4 * j]? = frame[3 * j]? ∧
        pixels[4 * j + 1]? = frame[3 * j + 1]? ∧
        pixels[4 * j + 2]? = frame[3 * j + 2]? ∧
        pixels[4 * j + 3]? = some 255 := by
  set w := v.imageWidth with hw
  set h := v.imageHeight with hh
  have hpix : ∀ y, y < h → ∀ x, x < w →
      rgbPixel .BGR frame
          ((y * ((w * 3) % 2 ^ 32)) % 2 ^ 32 + (x * 3) % 2 ^ 32) =
        .ok [frame.getD (3 * (y * w + x)) 0,
             frame.getD (3 * (y * w + x) + 1) 0,
             frame.getD (3 * (y * w + x) + 2) 0, 255] := by
    intro y hy x hx
    have hy1 : y + 1 ≤ h := hy
    have hx1 : x + 1 ≤ w := hx
    have key : 3 * (y * w + x) + 3 ≤ w * h * 3 := by
      calc 3 * (y * w + x) + 3 = y * (w * 3) + (x + 1) * 3 := by ring
        _ ≤ y * (w * 3) + w * 3 :=
          Nat.add_le_add_left (Nat.mul_le_mul_right 3 hx1) _
        _ = (y + 1) * (w * 3) := by ring
        _ ≤ h * (w * 3) := Nat.mul_le_mul_right _ hy1
        _ = w * h * 3 := by ring
    have hh1 : 1 ≤ h := by omega
    have hw3 : w * 3 < 2 ^ 32 := by
      refine lt_of_le_of_lt ?_ hsz
      calc w * 3 = 1 * (w * 3) := by ring
        _ ≤ h * (w * 3) := Nat.mul_le_mul_right _ hh1
        _ = w * h * 3 := by ring
    have ha : y * (w * 3) < 2 ^ 32 := by
      refine lt_of_le_of_lt ?_ hsz
      calc y * (w * 3) = 3 * (y * w) := by ring
        _ ≤ 3 * (y * w + x) := Nat.mul_le_mul_left 3 (Nat.le_add_right _ x)
        _ ≤ 3 * (y * w + x) + 3 := Nat.le_add_right _ _
        _ ≤ w * h * 3 := key
    have hb : x * 3 < 2 ^ 32 := by
      refine lt_of_le_of_lt ?_ hsz
      calc x * 3 = 3 * x := by ring
        _ ≤ 3 * (y * w + x) := Nat.mul_le_mul_left 3 (Nat.le_add_left x _)
        _ ≤ 3 * (y * w + x) + 3 := Nat.le_add_right _ _
        _ ≤ w * h * 3 := key
    rw [Nat.mod_eq_of_lt hw3, Nat.mod_eq_of_lt ha, Nat.mod_eq_of_lt hb]
    have hoff : y * (w * 3) + x * 3 = 3 * (y * w + x) := by ring
    rw [hoff]
    exact rgbPixel_ok (by omega)
  have hrow : ∀ y, y < h →
      exceptMapRange (fun x => rgbPixel .BGR frame
          ((y * ((w * 3) % 2 ^ 32)) % 2 ^ 32 + (x * 3) % 2 ^ 32)) w =
        .ok (flatRange (fun x =>
          [frame.getD (3 * (y * w + x)) 0,
           frame.getD (3 * (y * w + x) + 1) 0,
           frame.getD (3 * (y * w + x) + 2) 0, 255]) w) :=
    fun y hy => exceptMapRange_ok (fun x hx => hpix y hy x hx)
  have houter : exceptMapRange (fun y => exceptMapRange (fun x =>
      rgbPixel .BGR frame
        ((y * ((w * 3) % 2 ^ 32)) % 2 ^ 32 + (x * 3) % 2 ^ 32)) w) h =
      .ok (flatRange (fun y => flatRange (fun x =>
        [frame.getD (3 * (y * w + x)) 0,
         frame.getD (3 * (y * w + x) + 1) 0,
         frame.getD (3 * (y * w + x) + 2) 0, 255]) w) h) :=
    exceptMapRange_ok (fun y hy => hrow y hy)
  refine ⟨flatRange (fun y => flatRange (fun x =>
      [frame.getD (3 * (y * w + x)) 0,
       frame.getD (3 * (y * w + x) + 1) 0,
       frame.getD (3 * (y * w + x) + 2) 0, 255]) w) h, ?_, ?_, ?_⟩
  · rw [rgbDecode_eq hf, houter]
  · have hinner : ∀ y, y < h → (flatRange (fun x =>
        [frame.getD (3 * (y * w + x)) 0,
         frame.getD (3 * (y * w + x) + 1) 0,
         frame.getD (3 * (y * w + x) + 2) 0, 255]) w).length = w * 4 :=
      fun y _ => flatRange_length w (fun x _ => rfl)
    rw [flatRange_length h hinner]
    ring
  · intro j hj
    have hw0 : 0 < w := by
      rcases Nat.eq_zero_or_pos w with h0 | h0
      · rw [h0] at hj; simp at hj
      · exact h0
    have hy : j / w < h := by
      rw [Nat.div_lt_iff_lt_mul hw0]
      calc j < w * h := hj
        _ = h * w := by ring
    have hx : j % w < w := Nat.mod_lt _ hw0
    have hdecomp : (j / w) * w + j % w = j := by
      rw [Nat.mul_comm]
      exact Nat.div_add_mod j w
    have hinner : ∀ y, y < h → (flatRange (fun x =>
        [frame.getD (3 * (y * w + x)) 0,
         frame.getD (3 * (y * w + x) + 1) 0,
         frame.getD (3 * (y * w + x) + 2) 0, 255]) w).length = w * 4 :=
      fun y _ => flatRange_length w (fun x _ => rfl)
    have hget : ∀ k, k < 4 →
        (flatRange (fun y => flatRange (fun x =>
          [frame.getD (3 * (y * w + x)) 0,
           frame.getD (3 * (y * w + x) + 1) 0,
           frame.getD (3 * (y * w + x) + 2) 0, 255]) w) h)[4 * j + k]? =
        ([frame.getD (3 * j) 0, frame.getD (3 * j + 1) 0,
          frame.getD (3 * j + 2) 0, 255])[k]? := by
      intro k hk
      have hidx : 4 * j + k = (j / w) * (w * 4) + ((j % w) * 4 + k) := by
        calc 4 * j + k = 4 * ((j / w) * w + j % w) + k := by rw [hdecomp]
          _ = (j / w) * (w * 4) + ((j % w) * 4 + k) := by ring
      have hjk : (j % w) * 4 + k < w * 4 := by
        calc (j % w) * 4 + k < (j % w) * 4 + 4 := by omega
          _ = (j % w + 1) * 4 := by ring
          _ ≤ w * 4 := Nat.mul_le_mul_right 4 hx
      rw [hidx, flatRange_getElem? h (j / w) ((j % w) * 4 + k) hinner hy hjk]
      have hin4 : ∀ x, x < w →
          ([frame.getD (3 * (j / w * w + x)) 0,
            frame.getD (3 * (j / w * w + x) + 1) 0,
            frame.getD (3 * (j / w * w + x) + 2) 0, (255 : ℕ)]).length = 4 :=
        fun _ _ => rfl
      rw [flatRange_getElem? w (j % w) k hin4 hx hk]
      rw [hdecomp]
    have hfval : ∀ k, k < 3 → frame[3 * j + k]? = some (frame.getD (3 * j + k) 0) := by
      intro k hk
      apply getElem?_eq_some_getD
      have : 3 * j + 3 ≤ w * h * 3 := by
        calc 3 * j + 3 = (j + 1) * 3 := by ring
          _ ≤ (w * h) * 3 := Nat.mul_le_mul_right 3 hj
          _ = w * h * 3 := rfl
      omega
    have h30 : (3 : ℕ) * j = 3 * j + 0 := rfl
    refine ⟨?_, ?_, ?_, ?_⟩
    · rw [show 4 * j = 4 * j + 0 from rfl, hget 0 (by omega)]
      rw [h30, hfval 0 (by omega)]
      rfl
    · rw [hget 1 (by omega), hfval 1 (by omega)]
      rfl
    · rw [hget 2 (by omega), hfval 2 (by omega)]
      rfl
    · rw [hget 3 (by omega)]
      rfl

/-- C9: the packed decoder returns normally only for the BGR Bayer
configuration; with any other configured pattern and positive dimensions it
reaches the todo! branch on the first pixel (modelled as the panic
todoUnimplemented) instead of returning a result or a typed error. -/
theorem rgb_non_bgr_todo (c : RgbCodec) (v : VideoModel) (i : ℕ)
    (frame : List ℕ) (hf : v.frames[i]? = some frame) (hb : c.bayer ≠ .BGR)
    (hw : 0 < v.imageWidth) (hh : 0 < v.imageHeight) :
    RgbCodec.decode c v i = .error .todoUnimplemented := by
  rw [rgbDecode_eq hf]
  have hrow : ∀ y, y < v.imageHeight →
      exceptMapRange (fun x => rgbPixel c.bayer frame
        ((y * ((v.imageWidth * 3) % 2 ^ 32)) % 2 ^ 32 +
          (x * 3) % 2 ^ 32)) v.imageWidth =
        .error .todoUnimplemented :=
    fun y _ => exceptMapRange_error hw (fun x _ => rgbPixel_todo hb)
  rw [exceptMapRange_error hh hrow]

theorem debayerBlock_ok (frame : List ℕ) (w h b d : ℕ) (e : Endianness)
    (r cc : ℕ) (hb : b = 1 ∨ b = 2) (hsz : w * h * b < 2 ^ 32)
    (hlen : w * h * b ≤ frame.length) (hx : 2 * cc + 2 ≤ w)
    (hy : 2 * r + 2 ≤ h) :
    debayerBlock w b e d frame (2 * r) (2 * cc) =
      .ok (debayerBlockVal frame w b e d r cc) := by
  have key : (2 * r + 1) * (w * b) + (2 * cc) * b + 2 * b ≤ w * h * b := by
    calc (2 * r + 1) * (w * b) + (2 * cc) * b + 2 * b
        = (2 * r + 1) * (w * b) + (2 * cc + 2) * b := by ring
      _ ≤ (2 * r + 1) * (w * b) + w * b :=
        Nat.add_le_add_left (Nat.mul_le_mul_right b hx) _
      _ = (2 * r + 2) * (w * b) := by ring
      _ ≤ h * (w * b) := Nat.mul_le_mul_right _ hy
      _ = w * h * b := by ring
  have m1 : w * b < 2 ^ 32 := by
    refine lt_of_le_of_lt ?_ hsz
    calc w * b = 1 * (w * b) := by ring
      _ ≤ (2 * r + 1) * (w * b) := Nat.mul_le_mul_right _ (by omega)
      _ ≤ w * h * b := by omega
  have m2 : 2 * r * (w * b) < 2 ^ 32 := by
    refine lt_of_le_of_lt ?_ hsz
    calc 2 * r * (w * b) ≤ (2 * r + 1) * (w * b) :=
        Nat.mul_le_mul_right _ (by omega)
      _ ≤ w * h * b := by omega
  have m3 : 2 * cc * b < 2 ^ 32 := by
    refine lt_of_le_of_lt ?_ hsz
    calc 2 * cc * b ≤ (2 * r + 1) * (w * b) + 2 * cc * b :=
        Nat.le_add_left _ _
      _ = (2 * r + 1) * (w * b) + (2 * cc) * b := by ring
      _ ≤ w * h * b := by omega
  have m4 : 2 * r * (w * b) + w * b + 2 * cc * b < 2 ^ 32 := by
    refine lt_of_le_of_lt ?_ hsz
    calc 2 * r * (w * b) + w * b + 2 * cc * b
        = (2 * r + 1) * (w * b) + (2 * cc) * b := by ring
      _ ≤ w * h * b := by omega
  have hoffb : 2 * r * (w * b) + 2 * cc * b + 2 * b ≤ frame.length := by
    refine le_trans ?_ (le_trans key hlen)
    have : 2 * r * (w * b) ≤ (2 * r + 1) * (w * b) :=
      Nat.mul_le_mul_right _ (by omega)
    omega
  have hnrob : 2 * r * (w * b) + w * b + 2 * cc * b + 2 * b ≤
      frame.length := by
    refine le_trans ?_ (le_trans key hlen)
    have : 2 * r * (w * b) + w * b = (2 * r + 1) * (w * b) := by ring
    omega
  rcases hb with hb1 | hb2
  · subst hb1
    unfold debayerBlock
    simp only []
    rw [Nat.mod_eq_of_lt m1, Nat.mod_eq_of_lt m2, Nat.mod_eq_of_lt m3,
      Nat.mod_eq_of_lt m4]
    have e1 : sliceU8 frame (2 * r * (w * 1) + 2 * cc * 1) =
        .ok (frame.getD (2 * r * (w * 1) + 2 * cc * 1) 0) :=
      sliceU8_ok (by omega)
    have e2 : sliceU8 frame (2 * r * (w * 1) + 2 * cc * 1 + 1) =
        .ok (frame.getD (2 * r * (w * 1) + 2 * cc * 1 + 1) 0) :=
      sliceU8_ok (by omega)
    have e3 : sliceU8 frame (2 * r * (w * 1) + w * 1 + 2 * cc * 1) =
        .ok (frame.getD (2 * r * (w * 1) + w * 1 + 2 * cc * 1) 0) :=
      sliceU8_ok (by omega)
    have e4 : sliceU8 frame (2 * r * (w * 1) + w * 1 + 2 * cc * 1 + 1) =
        .ok (frame.getD (2 * r * (w * 1) + w * 1 + 2 * cc * 1 + 1) 0) :=
      sliceU8_ok (by omega)
    simp only [show ((1 : ℕ) = 2) = False by simp, if_false, e1, e2, e3, e4,
      except_ok_bind]
    simp only [debayerBlockVal, sampleAt, byteAt,
      show ((1 : ℕ) = 2) = False by simp, if_false]
    norm_num
    ring_nf
    rfl
  · subst hb2
    unfold debayerBlock
    simp only []
    rw [Nat.mod_eq_of_lt m1, Nat.mod_eq_of_lt m2, Nat.mod_eq_of_lt m3,
      Nat.mod_eq_of_lt m4]
    cases e with
    | LittleEndian =>
      have e1 : readU16 .LittleEndian frame
          (2 * r * (w * 2) + 2 * cc * 2) =
          .ok (frame.getD (2 * r * (w * 2) + 2 * cc * 2) 0 +
            256 * frame.getD (2 * r * (w * 2) + 2 * cc * 2 + 1) 0) :=
        readU16_ok .LittleEndian (by omega)
      have e2 : readU16 .LittleEndian frame
          (2 * r * (w * 2) + 2 * cc * 2 + 2) =
          .ok (frame.getD (2 * r * (w * 2) + 2 * cc * 2 + 2) 0 +
            256 * frame.getD (2 * r * (w * 2) + 2 * cc * 2 + 2 + 1) 0) :=
        readU16_ok .LittleEndian (by omega)
      have e3 : readU16 .LittleEndian frame
          (2 * r * (w * 2) + w * 2 + 2 * cc * 2) =
          .ok (frame.getD (2 * r * (w * 2) + w * 2 + 2 * cc * 2) 0 +
            256 * frame.getD (2 * r * (w * 2) + w * 2 + 2 * cc * 2 + 1) 0) :=
        readU16_ok .LittleEndian (by omega)
      have e4 : readU16 .LittleEndian frame
          (2 * r * (w * 2) + w * 2 + 2 * cc * 2 + 2) =
          .ok (frame.getD (2 * r * (w * 2) + w * 2 + 2 * cc * 2 + 2) 0 +
            256 * frame.getD (2 * r * (w * 2) + w * 2 + 2 * cc * 2 + 2 + 1) 0) :=
        readU16_ok .LittleEndian (by omega)
      simp only [show ((2 : ℕ) = 2) = True by simp, if_true, e1, e2, e3, e4,
        except_ok_bind]
      simp only [debayerBlockVal, sampleAt, byteAt,
        show ((2 : ℕ) = 2) = True by simp, if_true]
      norm_num
      ring_nf
      rfl
    | BigEndian =>
      have e1 : readU16 .BigEndian frame
          (2 * r * (w * 2) + 2 * cc * 2) =
          .ok (256 * frame.getD (2 * r * (w * 2) + 2 * cc * 2) 0 +
            frame.getD (2 * r * (w * 2) + 2 * cc * 2 + 1) 0) :=
        readU16_ok .BigEndian (by omega)
      have e2 : readU16 .BigEndian frame
          (2 * r * (w * 2) + 2 * cc * 2 + 2) =
          .ok (256 * frame.getD (2 * r * (w * 2) + 2 * cc * 2 + 2) 0 +
            frame.getD (2 * r * (w * 2) + 2 * cc * 2 + 2 + 1) 0) :=
        readU16_ok .BigEndian (by omega)
      have e3 : readU16 .BigEndian frame
          (2 * r * (w * 2) + w * 2 + 2 * cc * 2) =
          .ok (256 * frame.getD (2 * r * (w * 2) + w * 2 + 2 * cc * 2) 0 +
            frame.getD (2 * r * (w * 2) + w * 2 + 2 * cc * 2 + 1) 0) :=
        readU16_ok .BigEndian (by omega)
      have e4 : readU16 .BigEndian frame
          (2 * r * (w * 2) + w * 2 + 2 * cc * 2 + 2) =
          .ok (256 * frame.getD (2 * r * (w * 2) + w * 2 + 2 * cc * 2 + 2) 0 +
            frame.getD (2 * r * (w * 2) + w * 2 + 2 * cc * 2 + 2 + 1) 0) :=
        readU16_ok .BigEndian (by omega)
      simp only [show ((2 : ℕ) = 2) = True by simp, if_true, e1, e2, e3, e4,
        except_ok_bind]
      simp only [debayerBlockVal, sampleAt, byteAt,
        show ((2 : ℕ) = 2) = True by simp, if_true]
      norm_num
      ring_nf
      rfl

theorem debayerDecode_eq {v : VideoModel} {i : ℕ} {frame : List ℕ}
    (hf : v.frames[i]? = some frame) (hd : v.pixelDepthBits < 31) :
    DebayerCodec.decode v i =
      match exceptMapRange (fun ky => exceptMapRange (fun kx =>
          debayerBlock v.imageWidth v.bytesPerPixel v.endianness
            v.pixelDepthBits frame (2 * ky) (2 * kx))
          ((v.imageWidth + 1) / 2)) ((v.imageHeight + 1) / 2) with
      | .error e => .error e
      | .ok px => .ok (v.imageWidth / 2, v.imageHeight / 2, px) := by
  have hnd : ¬ 31 ≤ v.pixelDepthBits := by omega
  simp [DebayerCodec.decode, VideoModel.getFrame_ok hf, hnd]

theorem debayer_decode_ok (v : VideoModel) (i : ℕ) (frame : List ℕ)
    (hf : v.frames[i]? = some frame)
    (hw2 : v.imageWidth % 2 = 0) (hh2 : v.imageHeight % 2 = 0)
    (hb : v.bytesPerPixel = 1 ∨ v.bytesPerPixel = 2)
    (hd : v.pixelDepthBits ≤ 30)
    (hsz : v.imageWidth * v.imageHeight * v.bytesPerPixel < 2 ^ 32)
    (hlen : v.imageWidth * v.imageHeight * v.bytesPerPixel ≤ frame.length) :
    DebayerCodec.decode v i = .ok (v.imageWidth / 2, v.imageHeight / 2,
      flatRange (fun r => flatRange (fun cc =>
        debayerBlockVal frame v.imageWidth v.bytesPerPixel v.endianness
          v.pixelDepthBits r cc) (v.imageWidth / 2))
        (v.imageHeight / 2)) := by
  rw [debayerDecode_eq hf (by omega)]
  have hceilw : (v.imageWidth + 1) / 2 = v.imageWidth / 2 := by omega
  have hceilh : (v.imageHeight + 1) / 2 = v.imageHeight / 2 := by omega
  rw [hceilw, hceilh]
  have hblock : ∀ r, r < v.imageHeight / 2 → ∀ cc, cc < v.imageWidth / 2 →
      debayerBlock v.imageWidth v.bytesPerPixel v.endianness
        v.pixelDepthBits frame (2 * r) (2 * cc) =
        .ok (debayerBlockVal frame v.imageWidth v.bytesPerPixel
          v.endianness v.pixelDepthBits r cc) := by
    intro r hr cc hcc
    exact debayerBlock_ok frame v.imageWidth v.imageHeight v.bytesPerPixel
      v.pixelDepthBits v.endianness r cc hb hsz hlen (by omega) (by omega)
  have hrow : ∀ r, r < v.imageHeight / 2 →
      exceptMapRange (fun kx => debayerBlock v.imageWidth v.bytesPerPixel
        v.endianness v.pixelDepthBits frame (2 * r) (2 * kx))
        (v.imageWidth / 2) =
      .ok (flatRange (fun cc => debayerBlockVal frame v.imageWidth
        v.bytesPerPixel v.endianness v.pixelDepthBits r cc)
        (v.imageWidth / 2)) :=
    fun r hr => exceptMapRange_ok (fun cc hcc => hblock r hr cc hcc)
  rw [exceptMapRange_ok hrow]

/-- C4 (amended): for a mosaic source with even width and even height (one
or two bytes per pixel, depth at most 30 bits, sizes fitting u32, and a
frame slice of at least width * height * bytes_per_pixel bytes) the decoder
returns output width floor(width / 2), output height floor(height / 2) and a
buffer of exactly (width / 2) * (height / 2) * 4 bytes.  A source with odd
width or height does not silently drop its last row or column: the block
loops still enter the incomplete block and the decode panics on an
out-of-range slice read (see the counterexample). -/
theorem debayer_even_dims (v : VideoModel) (i : ℕ) (frame : List ℕ)
    (hf : v.frames[i]? = some frame)
    (hw2 : v.imageWidth % 2 = 0) (hh2 : v.imageHeight % 2 = 0)
    (hb : v.bytesPerPixel = 1 ∨ v.bytesPerPixel = 2)
    (hd : v.pixelDepthBits ≤ 30)
    (hsz : v.imageWidth * v.imageHeight * v.bytesPerPixel < 2 ^ 32)
    (hlen : v.imageWidth * v.imageHeight * v.bytesPerPixel ≤ frame.length) :
    ∃ px, DebayerCodec.decode v i =
        .ok (v.imageWidth / 2, v.imageHeight / 2, px) ∧
      px.length = (v.imageWidth / 2) * (v.imageHeight / 2) * 4 := by
  refine ⟨_, debayer_decode_ok v i frame hf hw2 hh2 hb hd hsz hlen, ?_⟩
  have hinner : ∀ r, r < v.imageHeight / 2 →
      (flatRange (fun cc => debayerBlockVal frame v.imageWidth
        v.bytesPerPixel v.endianness v.pixelDepthBits r cc)
        (v.imageWidth / 2)).length = (v.imageWidth / 2) * 4 :=
    fun r _ => flatRange_length _ (fun cc _ => rfl)
  rw [flatRange_length _ hinner]
  ring

/-- C4 counterexample: a source of width 2, height 1 (odd) with a frame of
exactly width * height bytes makes the decoder read past the frame slice
and panic, rather than return the claimed (floor(2/2), floor(1/2)) output
with an empty buffer. -/
theorem debayer_odd_dims_cex :
    DebayerCodec.decode cOddVideo 0 = .error .sliceOutOfBounds ∧
    ¬ DebayerCodec.decode cOddVideo 0 = .ok (1, 0, []) := by
  constructor
  · rfl
  · intro hcontra
    rw [show DebayerCodec.decode cOddVideo 0 =
      Except.error PanicKind.sliceOutOfBounds from rfl] at hcontra
    exact Except.noConfusion hcontra

/-- C6: within each non-overlapping 2 x 2 block at pixel origin
(2 cc, 2 r), the mosaic decoder emits the bottom-right sample as the blue
channel (buffer offset 0 of the pixel), the top-right sample as the green
channel (offset 1), the top-left sample as the red channel (offset 2) and
alpha = 255 (offset 3); the bottom-left sample never influences the output.
Samples are two-byte reads in the declared byte order when bytes-per-pixel
is 2 and single-byte reads when it is 1 (the definition of sampleAt). -/
theorem debayer_block_mapping (v : VideoModel) (i : ℕ) (frame : List ℕ)
    (hf : v.frames[i]? = some frame)
    (hw2 : v.imageWidth % 2 = 0) (hh2 : v.imageHeight % 2 = 0)
    (hb : v.bytesPerPixel = 1 ∨ v.bytesPerPixel = 2)
    (hd : v.pixelDepthBits ≤ 30)
    (hsz : v.imageWidth * v.imageHeight * v.bytesPerPixel < 2 ^ 32)
    (hlen : v.imageWidth * v.imageHeight * v.bytesPerPixel ≤ frame.length) :
    ∃ px, DebayerCodec.decode v i =
        .ok (v.imageWidth / 2, v.imageHeight / 2, px) ∧
      ∀ r cc, r < v.imageHeight / 2 → cc < v.imageWidth / 2 →
        px[4 * (r * (v.imageWidth / 2) + cc)]? =
          some (scaleSample (sampleAt frame v.imageWidth v.bytesPerPixel
            v.endianness (2 * cc + 1) (2 * r + 1)) v.pixelDepthBits) ∧
        px[4 * (r * (v.imageWidth / 2) + cc) + 1]? =
          some (scaleSample (sampleAt frame v.imageWidth v.bytesPerPixel
            v.endianness (2 * cc + 1) (2 * r)) v.pixelDepthBits) ∧
        px[4 * (r * (v.imageWidth / 2) + cc) + 2]? =
          some (scaleSample (sampleAt frame v.imageWidth v.bytesPerPixel
            v.endianness (2 * cc) (2 * r)) v.pixelDepthBits) ∧
        px[4 * (r * (v.imageWidth / 2) + cc) + 3]? = some 255 := by
  refine ⟨_, debayer_decode_ok v i frame hf hw2 hh2 hb hd hsz hlen, ?_⟩
  intro r cc hr hcc
  set px := flatRange (fun rr => flatRange (fun c2 => debayerBlockVal frame
    v.imageWidth v.bytesPerPixel v.endianness v.pixelDepthBits rr c2)
    (v.imageWidth / 2)) (v.imageHeight / 2) with hpx
  have hinner : ∀ rr, rr < v.imageHeight / 2 →
      (flatRange (fun c2 => debayerBlockVal frame v.imageWidth
        v.bytesPerPixel v.endianness v.pixelDepthBits rr c2)
        (v.imageWidth / 2)).length = (v.imageWidth / 2) * 4 :=
    fun rr _ => flatRange_length _ (fun c2 _ => rfl)
  have hget : ∀ k, k < 4 →
      px[4 * (r * (v.imageWidth / 2) + cc) + k]? =
      (debayerBlockVal frame v.imageWidth v.bytesPerPixel v.endianness
        v.pixelDepthBits r cc)[k]? := by
    intro k hk
    rw [hpx]
    have hidx : 4 * (r * (v.imageWidth / 2) + cc) + k =
        r * ((v.imageWidth / 2) * 4) + (cc * 4 + k) := by ring
    have hck : cc * 4 + k < (v.imageWidth / 2) * 4 := by
      calc cc * 4 + k < cc * 4 + 4 := by omega
        _ = (cc + 1) * 4 := by ring
        _ ≤ (v.imageWidth / 2) * 4 := Nat.mul_le_mul_right 4 hcc
    rw [hidx,
      flatRange_getElem? (v.imageHeight / 2) r (cc * 4 + k) hinner hr hck]
    have hin4 : ∀ c2, c2 < v.imageWidth / 2 →
        (debayerBlockVal frame v.imageWidth v.bytesPerPixel v.endianness
          v.pixelDepthBits r c2).length = 4 :=
      fun _ _ => rfl
    rw [flatRange_getElem? (v.imageWidth / 2) cc k hin4 hcc hk]
  refine ⟨?_, ?_, ?_, ?_⟩
  · rw [show 4 * (r * (v.imageWidth / 2) + cc) =
      4 * (r * (v.imageWidth / 2) + cc) + 0 from rfl, hget 0 (by omega)]
    rfl
  · rw [hget 1 (by omega)]
    rfl
  · rw [hget 2 (by omega)]
    rfl
  · rw [hget 3 (by omega)]
    rfl

/-- C10: for a mosaic source with even positive dimensions, one or two
bytes per pixel and a frame slice of at least
width * height * bytes_per_pixel bytes, every slice access of the decoder
stays in bounds (the tight case, a slice of exactly that many bytes, is
exercised by the witness), so the decode completes without an out-of-range
indexing failure. -/
theorem debayer_in_bounds (v : VideoModel) (i : ℕ) (frame : List ℕ)
    (hf : v.frames[i]? = some frame)
    (_hw0 : 0 < v.imageWidth) (_hh0 : 0 < v.imageHeight)
    (hw2 : v.imageWidth % 2 = 0) (hh2 : v.imageHeight % 2 = 0)
    (hb : v.bytesPerPixel = 1 ∨ v.bytesPerPixel = 2)
    (hd : v.pixelDepthBits ≤ 30)
    (hsz : v.imageWidth * v.imageHeight * v.bytesPerPixel < 2 ^ 32)
    (hlen : v.imageWidth * v.imageHeight * v.bytesPerPixel ≤ frame.length) :
    ∃ out, DebayerCodec.decode v i = .ok out :=
  ⟨_, debayer_decode_ok v i frame hf hw2 hh2 hb hd hsz hlen⟩

/-- C7 (amended): the emitted 8-bit channel value for a sample s at depth d
is the truncation floor(s * 255 / 2 ^ d) of the linear scaling (saturating
at 255; exact, since every f32 intermediate of the source expression is
exactly representable for these ranges), not the rounding to nearest that
the claim states: decoding a single uniform block of sample s yields three
channels floor(s * 255 / 2 ^ d). -/
theorem debayer_scaling_amended (s d : ℕ) (hs : s < 2 ^ d) (hd : d ≤ 30) :
    DebayerCodec.decode (uniformBlockVideo s d) 0 =
      .ok (1, 1, [s * 255 / 2 ^ d, s * 255 / 2 ^ d, s * 255 / 2 ^ d,
        255]) := by
  have hp : 0 < 2 ^ d := pow_pos (by norm_num : (0 : ℕ) < 2) d
  have hsc : scaleSample s d = s * 255 / 2 ^ d := by
    unfold scaleSample
    have h1 : s + 1 ≤ 2 ^ d := hs
    have hlt : s * 255 / 2 ^ d < 256 := by
      rw [Nat.div_lt_iff_lt_mul hp]
      calc s * 255 < (s + 1) * 256 := by omega
        _ ≤ 2 ^ d * 256 := Nat.mul_le_mul_right 256 h1
        _ = 256 * 2 ^ d := by ring
    exact min_eq_left (by omega)
  have h := debayer_decode_ok (uniformBlockVideo s d) 0 [s, s, s, s]
    (by simp [uniformBlockVideo]) (by simp [uniformBlockVideo])
    (by simp [uniformBlockVideo]) (Or.inl (by simp [uniformBlockVideo]))
    (by simpa [uniformBlockVideo] using hd)
    (by norm_num [uniformBlockVideo]) (by norm_num [uniformBlockVideo])
  rw [h]
  norm_num [flatRange, debayerBlockVal, sampleAt, byteAt, hsc,
    uniformBlockVideo, List.getD_cons_zero, List.getD_cons_succ]

/-- C7 counterexample: for sample 128 at depth 8 the decoder emits
floor(128 * 255 / 256) = 127, while the claimed round(128 / 256 * 255) =
round(127.5) = 128; the emitted channels of the decoded uniform block are
127, not 128. -/
theorem debayer_scaling_cex :
    DebayerCodec.decode cScaleVideo 0 = .ok (1, 1, [127, 127, 127, 255]) ∧
    specRoundScale 128 8 = 128 ∧ ¬ (127 : ℕ) = 128 := by
  exact ⟨rfl, rfl, by omega⟩

theorem except_pure {E α : Type} (a : α) :
    (pure a : Except E α) = .ok a := rfl

theorem parse_stream_format_bc (bytes : List ℕ) (c : ChunkMeta) (bc : ℕ)
    (h48 : 48 ≤ c.dataSize) (hb : c.dataOffset + 48 ≤ bytes.length)
    (hbc : readU16LE bytes (c.dataOffset + 14) = bc) :
    parse_stream_format bytes c =
      if bc = 0 then .error (.unsupportedPixelFormat .jpgPngNotSupported)
      else if bc = 1 then
        .error (.unsupportedPixelFormat .monochromeNotSupported)
      else if bc = 4 then
        .error (.unsupportedPixelFormat .unsupportedBitCount)
      else if bc = 8 then
        .error (.unsupportedPixelFormat .unsupportedBitCount)
      else if bc = 16 then
        .error (.unsupportedPixelFormat .unsupportedBitCount)
      else if bc = 24 then
        .ok { header := decodeBitMapInfoHeader bytes c.dataOffset,
              colorCoding := .BGR, rgb := [] }
      else if bc = 32 then
        .error (.unsupportedPixelFormat .unsupportedBitCount)
      else .error .invalidPixelFormat := by
  unfold parse_stream_format
  simp only []
  rw [if_neg (by omega), if_neg (by omega)]
  have hbit : (decodeBitMapInfoHeader bytes c.dataOffset).bitCount = bc :=
    hbc
  rw [hbit]

theorem open_canonical_eq (bytes : List ℕ) (a s f x : ChunkMeta)
    (movi : List Entry)
    (ha : a.chunkId = FOURCC_AVIH) (hsid : s.chunkId = FOURCC_STRH)
    (hfid : f.chunkId = FOURCC_STRF) (hxid : x.chunkId = FOURCC_INDX)
    (ha44 : 44 ≤ a.dataSize)
    (hab : a.dataOffset + a.chunkSize ≤ bytes.length)
    (hs56 : 56 ≤ s.dataSize)
    (hsb : s.dataOffset + s.chunkSize ≤ bytes.length) :
    AviFile.openFile bytes (canonicalEntries a s f x movi) =
      match parse_stream_format bytes f with
      | .error e => .error e
      | .ok fmt =>
        .ok { mainHeader := decodeMainHeader bytes a.dataOffset,
              streamHeader := decodeStreamHeader bytes s.dataOffset,
              streamFormat := fmt,
              frames := filterFrameChunks movi } := by
  have hne1 : FOURCC_STRH ≠ FOURCC_STRF := by decide
  have hne2 : FOURCC_STRH ≠ FOURCC_INDX := by decide
  have hne3 : FOURCC_STRF ≠ FOURCC_INDX := by decide
  have hne4 : FOURCC_HDRL ≠ FOURCC_MOVI := by decide
  have hna : ¬ a.dataSize < 44 := by omega
  have hnab : ¬ bytes.length < a.dataOffset + a.chunkSize := by omega
  have hns : ¬ s.dataSize < 56 := by omega
  have hnsb : ¬ bytes.length < s.dataOffset + s.chunkSize := by omega
  cases hpsf : parse_stream_format bytes f with
  | error e =>
    simp [AviFile.openFile, canonicalEntries, findMandatoryList,
      findMandatoryListInList, findMandatoryChunk, findListOfType,
      findChunkOfId, ha, hsid, hfid, hxid, hne1, hne2, hne3, hne4,
      parse_main_header, parse_stream_header, hna, hnab, hns, hnsb, hpsf,
      except_ok_bind, except_error_bind, except_pure]
  | ok fmt =>
    simp [AviFile.openFile, canonicalEntries, findMandatoryList,
      findMandatoryListInList, findMandatoryChunk, findListOfType,
      findChunkOfId, ha, hsid, hfid, hxid, hne1, hne2, hne3, hne4,
      parse_main_header, parse_stream_header, hna, hnab, hns, hnsb, hpsf,
      except_ok_bind, except_error_bind, except_pure]

/-- C3 (amended): the mandatory structural nodes are the hdrl list with an
avih leaf (44 or more data bytes), the strl list with strh (56 or more
bytes), strf (48 or more bytes, declaring bit_count 24) and additionally an
indx leaf, plus a top-level movi list; with all of them present (and the
header reads inside the file) open succeeds, while the same layout without
the indx chunk fails with the MissingMandatoryChunk error naming strl and
indx — the claim's list of mandatory nodes misses indx. -/
theorem open_mandatory_amended (bytes : List ℕ) (a s f x : ChunkMeta)
    (movi : List Entry)
    (ha : a.chunkId = FOURCC_AVIH) (hsid : s.chunkId = FOURCC_STRH)
    (hfid : f.chunkId = FOURCC_STRF) (hxid : x.chunkId = FOURCC_INDX)
    (ha44 : 44 ≤ a.dataSize)
    (hab : a.dataOffset + a.chunkSize ≤ bytes.length)
    (hs56 : 56 ≤ s.dataSize)
    (hsb : s.dataOffset + s.chunkSize ≤ bytes.length)
    (hf48 : 48 ≤ f.dataSize) (hfb : f.dataOffset + 48 ≤ bytes.length)
    (hbc : readU16LE bytes (f.dataOffset + 14) = 24) :
    (∃ fl, AviFile.openFile bytes (canonicalEntries a s f x movi) =
      .ok fl) ∧
    AviFile.openFile bytes
        [.list FOURCC_HDRL
          [.chunk a, .list FOURCC_STRL [.chunk s, .chunk f]],
         .list FOURCC_MOVI movi] =
      .error (.missingMandatoryChunk FOURCC_STRL FOURCC_INDX) := by
  have hne1 : FOURCC_STRH ≠ FOURCC_STRF := by decide
  have hne2 : FOURCC_STRH ≠ FOURCC_INDX := by decide
  have hne3 : FOURCC_STRF ≠ FOURCC_INDX := by decide
  have hna : ¬ a.dataSize < 44 := by omega
  have hnab : ¬ bytes.length < a.dataOffset + a.chunkSize := by omega
  constructor
  · rw [open_canonical_eq bytes a s f x movi ha hsid hfid hxid ha44 hab
      hs56 hsb, parse_stream_format_bc bytes f 24 hf48 hfb hbc]
    norm_num
  · simp [AviFile.openFile, findMandatoryList, findMandatoryListInList,
      findMandatoryChunk, findListOfType, findChunkOfId, ha, hsid, hfid,
      hne1, hne2, hne3, parse_main_header, hna, hnab,
      except_ok_bind, except_error_bind, except_pure]

/-- C8: with the mandatory layout present and a pixel-format record of at
least 48 bytes inside the file, the open operation branches exactly on the
declared bits-per-pixel value bc: 24 yields a Frame Source whose stream
format has packed-BGR color coding, an empty color table and bit_count 24;
each of 0, 1, 4, 8, 16 and 32 makes open fail with an UnsupportedPixelFormat
error (so no Frame Source is constructed); every other value makes open fail
with InvalidPixelFormat. -/
theorem pixel_format_branching (bytes : List ℕ) (a s f x : ChunkMeta)
    (movi : List Entry) (bc : ℕ)
    (ha : a.chunkId = FOURCC_AVIH) (hsid : s.chunkId = FOURCC_STRH)
    (hfid : f.chunkId = FOURCC_STRF) (hxid : x.chunkId = FOURCC_INDX)
    (ha44 : 44 ≤ a.dataSize)
    (hab : a.dataOffset + a.chunkSize ≤ bytes.length)
    (hs56 : 56 ≤ s.dataSize)
    (hsb : s.dataOffset + s.chunkSize ≤ bytes.length)
    (hf48 : 48 ≤ f.dataSize) (hfb : f.dataOffset + 48 ≤ bytes.length)
    (hbc : readU16LE bytes (f.dataOffset + 14) = bc) :
    (bc = 24 → ∃ fl,
      AviFile.openFile bytes (canonicalEntries a s f x movi) = .ok fl ∧
      fl.streamFormat.colorCoding = .BGR ∧ fl.streamFormat.rgb = [] ∧
      fl.streamFormat.header.bitCount = 24) ∧
    ((bc = 0 ∨ bc = 1 ∨ bc = 4 ∨ bc = 8 ∨ bc = 16 ∨ bc = 32) →
      ∃ msg, AviFile.openFile bytes (canonicalEntries a s f x movi) =
        .error (.unsupportedPixelFormat msg)) ∧
    (¬ (bc = 0 ∨ bc = 1 ∨ bc = 4 ∨ bc = 8 ∨ bc = 16 ∨ bc = 24 ∨
        bc = 32) →
      AviFile.openFile bytes (canonicalEntries a s f x movi) =
        .error .invalidPixelFormat) := by
  rw [open_canonical_eq bytes a s f x movi ha hsid hfid hxid ha44 hab
    hs56 hsb, parse_stream_format_bc bytes f bc hf48 hfb hbc]
  refine ⟨?_, ?_, ?_⟩
  · intro h24
    subst h24
    norm_num
    exact hbc
  · intro h6
    rcases h6 with h | h | h | h | h | h <;> subst h <;> norm_num
  · intro hno
    have h0 : ¬ bc = 0 := by omega
    have h1 : ¬ bc = 1 := by omega
    have h4 : ¬ bc = 4 := by omega
    have h8 : ¬ bc = 8 := by omega
    have h16 : ¬ bc = 16 := by omega
    have h24 : ¬ bc = 24 := by omega
    have h32 : ¬ bc = 32 := by omega
    rw [if_neg h0, if_neg h1, if_neg h4, if_neg h8, if_neg h16, if_neg h24,
      if_neg h32]

set_option maxRecDepth 100000 in
/-- C3 counterexample: a container holding every node the claim lists as
mandatory — hdrl with a 44-byte avih, strl with a 56-byte strh and a
48-byte strf declaring bit_count 24 and compression 0, and a top-level
movi list — but no indx chunk, fails the open operation with
MissingMandatoryChunk naming strl and indx instead of succeeding. -/
theorem open_mandatory_cex :
    AviFile.openFile cBytes
        [.list FOURCC_HDRL
          [.chunk cAvih, .list FOURCC_STRL [.chunk cStrh, .chunk cStrf]],
         .list FOURCC_MOVI []] =
      .error (.missingMandatoryChunk FOURCC_STRL FOURCC_INDX) := rfl

/-- C1 (amended): the frame count the Frame Source exposes is the
MainHeader's total_frames field — the little-endian u32 at offset 16 of the
avih chunk's data — while the frame index is the 00db-filtered children of
the movi list; the exposed count is not the length of the built frame
index and the two can differ. -/
theorem frame_count_amended (bytes : List ℕ) (entries : List Entry)
    (fl : AviFileModel) (hopen : AviFile.openFile bytes entries = .ok fl) :
    AviVideo.frame_count fl = fl.mainHeader.totalFrames ∧
    ∃ hd c movi,
      findMandatoryList entries FOURCC_HDRL = .ok hd ∧
      findMandatoryChunk hd.1 hd.2 FOURCC_AVIH = .ok c ∧
      fl.mainHeader.totalFrames = readU32LE bytes (c.dataOffset + 16) ∧
      findMandatoryList entries FOURCC_MOVI = .ok movi ∧
      fl.frames = filterFrameChunks movi.2 := by
  unfold AviFile.openFile at hopen
  obtain ⟨hd, h1, hrest⟩ := except_bind_eq_ok hopen
  obtain ⟨c, h2, hrest⟩ := except_bind_eq_ok hrest
  obtain ⟨mh, h3, hrest⟩ := except_bind_eq_ok hrest
  obtain ⟨strl, h4, hrest⟩ := except_bind_eq_ok hrest
  obtain ⟨sh, h5, hrest⟩ := except_bind_eq_ok hrest
  obtain ⟨sf, h6, hrest⟩ := except_bind_eq_ok hrest
  obtain ⟨ix, h7, hrest⟩ := except_bind_eq_ok hrest
  obtain ⟨shv, h8, hrest⟩ := except_bind_eq_ok hrest
  obtain ⟨sfv, h9, hrest⟩ := except_bind_eq_ok hrest
  obtain ⟨movi, h10, hfin⟩ := except_bind_eq_ok hrest
  rw [except_pure] at hfin
  have hfl := (Except.ok.inj hfin).symm
  have hmh : mh = decodeMainHeader bytes c.dataOffset := by
    unfold parse_main_header at h3
    by_cases hc1 : c.dataSize < 44
    · rw [if_pos hc1] at h3
      exact Except.noConfusion h3
    · rw [if_neg hc1] at h3
      by_cases hc2 : bytes.length < c.dataOffset + c.chunkSize
      · rw [if_pos hc2] at h3
        exact Except.noConfusion h3
      · rw [if_neg hc2] at h3
        exact (Except.ok.inj h3).symm
  constructor
  · rfl
  · refine ⟨hd, c, movi, h1, h2, ?_, h10, ?_⟩
    · rw [hfl, hmh]
      rfl
    · rw [hfl]

set_option maxRecDepth 100000 in
/-- C1 counterexample: opening a container whose avih declares
total_frames 5 while the movi list holds only three 00db chunks yields a
Frame Source whose frame_count is 5 and whose built frame index has
length 3 — the exposed count does not equal the index length. -/
theorem frame_count_cex :
    (AviFile.openFile cBytes cEntries).map
        (fun fl => (AviVideo.frame_count fl, fl.frames.length)) =
      .ok (5, 3) ∧ ¬ (5 : ℕ) = 3 := by
  exact ⟨rfl, by omega⟩

/-- C2 (amended): the RIFF-family get_frame indexes the built frame index:
for an index at or past the index length it panics with the out-of-range
index failure (never the typed FrameIndexOutOfRange error the claim names),
and for an index inside the frame index (whose descriptor's byte range lies
in the file) it returns Ok with exactly the descriptor's subrange of the
file.  In particular an index below the exposed frame_count can still
panic, since frame_count is the header's total_frames field. -/
theorem get_frame_amended (fl : AviFileModel) (bytes : List ℕ) (i : ℕ) :
    (fl.frames.length ≤ i →
      AviVideo.get_frame fl bytes i = .error (.panic .indexOutOfBounds)) ∧
    (∀ m, fl.frames[i]? = some m →
      m.dataOffset + m.dataSize ≤ bytes.length →
      AviVideo.get_frame fl bytes i =
        .ok ((bytes.drop m.dataOffset).take m.dataSize)) ∧
    ¬ AviVideo.get_frame fl bytes i = .error .frameIndexOutOfRange := by
  refine ⟨?_, ?_, ?_⟩
  · intro hge
    unfold AviVideo.get_frame
    rw [List.getElem?_eq_none hge]
  · intro m hm hb
    unfold AviVideo.get_frame
    rw [hm]
    simp [hb]
  · unfold AviVideo.get_frame
    cases hm : fl.frames[i]? with
    | none => simp
    | some m =>
      by_cases hb : m.dataOffset + m.dataSize ≤ bytes.length <;> simp [hb]

set_option maxRecDepth 100000 in
/-- C2 counterexample: for the opened container with declared total_frames 5
but a frame index of length 3, the in-range-by-the-claim index 4 (it is
below frame_count = 5) does not return Ok: get_frame panics with an
out-of-range index failure, and no FrameIndexOutOfRange error exists. -/
theorem get_frame_cex :
    (4 : ℕ) < 5 ∧
    (AviFile.openFile cBytes cEntries).map
        (fun fl => (AviVideo.frame_count fl,
          AviVideo.get_frame fl cBytes 4)) =
      .ok (5, .error (.panic .indexOutOfBounds)) := by
  exact ⟨by omega, rfl⟩

set_option maxRecDepth 100000 in
theorem frame_count_witness :
    AviVideo.frame_count cOpened = cOpened.mainHeader.totalFrames ∧
    ∃ hd c movi,
      findMandatoryList cEntries FOURCC_HDRL = .ok hd ∧
      findMandatoryChunk hd.1 hd.2 FOURCC_AVIH = .ok c ∧
      cOpened.mainHeader.totalFrames =
        readU32LE cBytes (c.dataOffset + 16) ∧
      findMandatoryList cEntries FOURCC_MOVI = .ok movi ∧
      cOpened.frames = filterFrameChunks movi.2 :=
  frame_count_amended cBytes cEntries cOpened (by rfl)

set_option maxRecDepth 100000 in
theorem get_frame_witness :
    AviVideo.get_frame cOpened cBytes 5 =
      .error (.panic .indexOutOfBounds) ∧
    AviVideo.get_frame cOpened cBytes 0 =
      .ok ((cBytes.drop cFrame1.dataOffset).take cFrame1.dataSize) ∧
    ¬ AviVideo.get_frame cOpened cBytes 9 =
      .error .frameIndexOutOfRange :=
  ⟨(get_frame_amended cOpened cBytes 5).1 (by decide),
   (get_frame_amended cOpened cBytes 0).2.1 cFrame1 (by rfl) (by decide),
   (get_frame_amended cOpened cBytes 9).2.2⟩

set_option maxRecDepth 100000 in
theorem open_mandatory_witness :
    (∃ fl, AviFile.openFile cBytes
      (canonicalEntries cAvih cStrh cStrf cIndx
        [.chunk cFrame1, .chunk cJunk, .chunk cFrame2, .chunk cFrame3]) =
      .ok fl) ∧
    AviFile.openFile cBytes
        [.list FOURCC_HDRL
          [.chunk cAvih, .list FOURCC_STRL [.chunk cStrh, .chunk cStrf]],
         .list FOURCC_MOVI
          [.chunk cFrame1, .chunk cJunk, .chunk cFrame2, .chunk cFrame3]] =
      .error (.missingMandatoryChunk FOURCC_STRL FOURCC_INDX) :=
  open_mandatory_amended cBytes cAvih cStrh cStrf cIndx
    [.chunk cFrame1, .chunk cJunk, .chunk cFrame2, .chunk cFrame3]
    rfl rfl rfl rfl (by decide) (by decide) (by decide) (by decide)
    (by decide) (by decide) (by decide)

set_option maxRecDepth 100000 in
theorem pixel_format_branching_witness :
    ((8 : ℕ) = 24 → ∃ fl,
      AviFile.openFile cBytes8
          (canonicalEntries cAvih cStrh cStrf cIndx []) = .ok fl ∧
      fl.streamFormat.colorCoding = .BGR ∧ fl.streamFormat.rgb = [] ∧
      fl.streamFormat.header.bitCount = 24) ∧
    (((8 : ℕ) = 0 ∨ (8 : ℕ) = 1 ∨ (8 : ℕ) = 4 ∨ (8 : ℕ) = 8 ∨
        (8 : ℕ) = 16 ∨ (8 : ℕ) = 32) →
      ∃ msg, AviFile.openFile cBytes8
          (canonicalEntries cAvih cStrh cStrf cIndx []) =
        .error (.unsupportedPixelFormat msg)) ∧
    (¬ ((8 : ℕ) = 0 ∨ (8 : ℕ) = 1 ∨ (8 : ℕ) = 4 ∨ (8 : ℕ) = 8 ∨
        (8 : ℕ) = 16 ∨ (8 : ℕ) = 24 ∨ (8 : ℕ) = 32) →
      AviFile.openFile cBytes8
          (canonicalEntries cAvih cStrh cStrf cIndx []) =
        .error .invalidPixelFormat) :=
  pixel_format_branching cBytes8 cAvih cStrh cStrf cIndx [] 8
    rfl rfl rfl rfl (by decide) (by decide) (by decide) (by decide)
    (by decide) (by decide) (by decide)

theorem rgb_decode_pixels_witness :
    ∃ pixels, RgbCodec.decode { bayer := .BGR } cRgbVideo 0 =
        .ok (cRgbVideo.imageWidth, cRgbVideo.imageHeight, pixels) ∧
      pixels.length = cRgbVideo.imageWidth * cRgbVideo.imageHeight * 4 ∧
      ∀ j, j < cRgbVideo.imageWidth * cRgbVideo.imageHeight →
        pixels[4 * j]? = [10, 20, 30, 40, 50, 60][3 * j]? ∧
        pixels[4 * j + 1]? = [10, 20, 30, 40, 50, 60][3 * j + 1]? ∧
        pixels[4 * j + 2]? = [10, 20, 30, 40, 50, 60][3 * j + 2]? ∧
        pixels[4 * j + 3]? = some 255 :=
  rgb_decode_pixels cRgbVideo 0 [10, 20, 30, 40, 50, 60] rfl (by decide)
    (by decide)

theorem debayer_even_dims_witness :
    ∃ px, DebayerCodec.decode cEvenVideo 0 =
        .ok (cEvenVideo.imageWidth / 2, cEvenVideo.imageHeight / 2, px) ∧
      px.length =
        (cEvenVideo.imageWidth / 2) * (cEvenVideo.imageHeight / 2) * 4 :=
  debayer_even_dims cEvenVideo 0 [1, 2, 3, 4, 5, 6, 7, 8] rfl (by decide)
    (by decide) (Or.inr (by decide)) (by decide) (by decide) (by decide)

theorem debayer_block_mapping_witness :
    ∃ px, DebayerCodec.decode cEvenVideo 0 =
        .ok (cEvenVideo.imageWidth / 2, cEvenVideo.imageHeight / 2, px) ∧
      ∀ r cc, r < cEvenVideo.imageHeight / 2 →
          cc < cEvenVideo.imageWidth / 2 →
        px[4 * (r * (cEvenVideo.imageWidth / 2) + cc)]? =
          some (scaleSample (sampleAt [1, 2, 3, 4, 5, 6, 7, 8]
            cEvenVideo.imageWidth cEvenVideo.bytesPerPixel
            cEvenVideo.endianness (2 * cc + 1) (2 * r + 1))
            cEvenVideo.pixelDepthBits) ∧
        px[4 * (r * (cEvenVideo.imageWidth / 2) + cc) + 1]? =
          some (scaleSample (sampleAt [1, 2, 3, 4, 5, 6, 7, 8]
            cEvenVideo.imageWidth cEvenVideo.bytesPerPixel
            cEvenVideo.endianness (2 * cc + 1) (2 * r))
            cEvenVideo.pixelDepthBits) ∧
        px[4 * (r * (cEvenVideo.imageWidth / 2) + cc) + 2]? =
          some (scaleSample (sampleAt [1, 2, 3, 4, 5, 6, 7, 8]
            cEvenVideo.imageWidth cEvenVideo.bytesPerPixel
            cEvenVideo.endianness (2 * cc) (2 * r))
            cEvenVideo.pixelDepthBits) ∧
        px[4 * (r * (cEvenVideo.imageWidth / 2) + cc) + 3]? = some 255 :=
  debayer_block_mapping cEvenVideo 0 [1, 2, 3, 4, 5, 6, 7, 8] rfl
    (by decide) (by decide) (Or.inr (by decide)) (by decide) (by decide)
    (by decide)

theorem debayer_scaling_witness :
    DebayerCodec.decode (uniformBlockVideo 128 8) 0 =
      .ok (1, 1, [128 * 255 / 2 ^ 8, 128 * 255 / 2 ^ 8,
        128 * 255 / 2 ^ 8, 255]) :=
  debayer_scaling_amended 128 8 (by decide) (by decide)

theorem rgb_non_bgr_witness :
    RgbCodec.decode { bayer := .RGGB } cTinyVideo 0 =
      .error .todoUnimplemented :=
  rgb_non_bgr_todo { bayer := .RGGB } cTinyVideo 0 [0, 0, 0] rfl
    (by decide) (by decide) (by decide)

theorem debayer_in_bounds_witness :
    ∃ out, DebayerCodec.decode cByteVideo 0 = .ok out :=
  debayer_in_bounds cByteVideo 0 [1, 2, 3, 4] rfl (by decide) (by decide)
    (by decide) (by decide) (Or.inl (by decide)) (by decide) (by decide)
    (by decide)
